import Mathlib

/-!
# ExtractResource (gui/guiresource.c)

A shallow embedding of the one function of `gui/guiresource.c` together with a
model of the seven Win32 host calls it makes.  The function body is translated
statement by statement; the host calls are state-passing functions over a
`World` that holds the loaded modules with their resource tables, the process
memory, the file system with the resolution of paths to files, the table of
open file handles and a log of the host calls issued so far.
-/

namespace Wabbitemu

/-! ## Win32 types and constants -/

/-- One byte of process memory or of a file. -/
abbrev BYTE := Fin 256

/-- A 32-bit unsigned value, kept as a natural number below `2 ^ 32`. -/
abbrev DWORD := Nat

/-- A resource reference as handed out by `FindResource`. -/
abbrev HRSRC := Nat

/-- A module handle; `none` is `NULL`. -/
abbrev HMODULE := Option Nat

/-- A handle to loaded resource data; `none` is `NULL`. -/
abbrev HGLOBAL := Option Nat

/-- A data pointer (an address in process memory); `none` is `NULL`. -/
abbrev LPVOID := Option Nat

/-- A file handle; `none` is `INVALID_HANDLE_VALUE`. -/
abbrev HANDLE := Option Nat

/-- A destination path (`TCHAR *`). -/
abbrev Path := String

/-- The identity of a file on the host (volume and file index): what a path
names once the host has resolved it. -/
abbrev FileId := Nat

def GENERIC_READ : DWORD := 0x80000000
def GENERIC_WRITE : DWORD := 0x40000000
def FILE_SHARE_READ : DWORD := 1
def FILE_SHARE_WRITE : DWORD := 2
def CREATE_NEW : DWORD := 1
def CREATE_ALWAYS : DWORD := 2
def OPEN_EXISTING : DWORD := 3
def OPEN_ALWAYS : DWORD := 4
def TRUNCATE_EXISTING : DWORD := 5
def FILE_ATTRIBUTE_NORMAL : DWORD := 0x80

/-! ## Host state -/

/-- A resource data entry of a module: where the payload starts in memory and
how many bytes it is declared to have. -/
structure ResEntry where
  addr : Nat
  size : Nat
deriving DecidableEq

/-- An entry of the table of open file handles. -/
structure OpenFile where
  id : Nat
  file : FileId
  pos : Nat
  access : DWORD
  share : DWORD
deriving DecidableEq

/-- A host call with the arguments it was issued with. -/
inductive HostCall where
  | getModuleHandle (lpModuleName : Option String)
  | loadResource (hModule : HMODULE) (hResInfo : HRSRC)
  | sizeofResource (hModule : HMODULE) (hResInfo : HRSRC)
  | lockResource (hResData : HGLOBAL)
  | createFile (lpFileName : Path)
      (dwDesiredAccess dwShareMode dwCreationDisposition dwFlagsAndAttributes : DWORD)
  | writeFile (hFile : HANDLE) (lpBuffer : LPVOID) (nNumberOfBytesToWrite : DWORD)
  | closeHandle (hObject : HANDLE)
deriving DecidableEq

/-- The state of the host as far as `ExtractResource` can see or change it.

* `exe` is the module the process was created from; `loaded` finds the other
  loaded modules by name; `resTable` is the resource table of each module.
* `mem` is the process memory the resource payloads live in.
* `resolve` is the path resolution of the host: the file a path names, whether
  it exists yet or not.  Two spellings of one path (`out.bin` and `./out.bin`,
  upper and lower case, relative and absolute) and two hard links of one file
  resolve to the same identity.
* `files` is the file system: the content of every file that exists.
* `openable` is the verdict of the host on whether a path can be created or
  opened at all (parent directory present, permissions, path length).
* `writeCap` is the number of bytes the host accepts in one write (disk space).
* `handles` is the table of open file handles.
* `log` records every host call issued, oldest first. -/
structure World where
  exe : Nat
  loaded : String → Option Nat
  resTable : Nat → HRSRC → Option ResEntry
  mem : Nat → BYTE
  resolve : Path → FileId
  files : FileId → Option (List BYTE)
  openable : Path → Bool
  writeCap : Nat
  handles : List OpenFile
  log : List HostCall

/-- What a path reads back as: the content of the file it names, or `none` when
no such file exists. -/
def World.read (w : World) (path : Path) : Option (List BYTE) :=
  w.files (w.resolve path)

/-- Append one host call to the log. -/
def World.record (w : World) (c : HostCall) : World :=
  { w with log := w.log ++ [c] }

/-- The `n` bytes of memory starting at `addr`. -/
def readMem (mem : Nat → BYTE) (addr n : Nat) : List BYTE :=
  (List.range n).map (fun i => mem (addr + i))

/-- The resource entry a module handle and a resource reference designate; a
`NULL` module handle stands for the module the process was created from. -/
def findRes (w : World) (hModule : HMODULE) (hResInfo : HRSRC) : Option ResEntry :=
  w.resTable (hModule.getD w.exe) hResInfo

/-! ## Host calls -/

/-- The host call `GetModuleHandle`: with `NULL` it returns the handle of the
file used to create the calling process. -/
def GetModuleHandle (lpModuleName : Option String) (w : World) : HMODULE × World :=
  let w1 := w.record (.getModuleHandle lpModuleName)
  match lpModuleName with
  | none => (some w.exe, w1)
  | some n => (w.loaded n, w1)

/-- The host call `LoadResource`: a handle to the resource data (its address),
or `NULL` when the reference does not resolve in the module. -/
def LoadResource (hModule : HMODULE) (hResInfo : HRSRC) (w : World) : HGLOBAL × World :=
  ((findRes w hModule hResInfo).map (fun e => e.addr), w.record (.loadResource hModule hResInfo))

/-- The host call `SizeofResource`: the declared size in bytes as a `DWORD`, or
zero when the reference does not resolve in the module. -/
def SizeofResource (hModule : HMODULE) (hResInfo : HRSRC) (w : World) : DWORD × World :=
  (match findRes w hModule hResInfo with
    | some e => e.size % 2 ^ 32
    | none => 0,
   w.record (.sizeofResource hModule hResInfo))

/-- The host call `LockResource`: the pointer to the first byte of the resource
data, or `NULL` for a `NULL` handle. -/
def LockResource (hResData : HGLOBAL) (w : World) : LPVOID × World :=
  (hResData, w.record (.lockResource hResData))

/-- Whether a share mode lets another handle have the given access. -/
def shareAllows (share access : DWORD) : Bool :=
  (access / GENERIC_READ % 2 == 0 || share / FILE_SHARE_READ % 2 == 1) &&
  (access / GENERIC_WRITE % 2 == 0 || share / FILE_SHARE_WRITE % 2 == 1)

/-- Whether opening `path` with the given access and share mode collides with
a handle that is already open on the file it names. -/
def sharingViolation (w : World) (path : Path) (access share : DWORD) : Bool :=
  w.handles.any (fun h =>
    h.file == w.resolve path && !(shareAllows share h.access && shareAllows h.share access))

/-- A handle value that is not in the table. -/
def freshHandle (hs : List OpenFile) : Nat :=
  (hs.map (fun h => h.id)).foldr max 0 + 1

/-- The content a file has right after it was opened with the given creation
disposition, or `none` when the disposition makes the open fail. -/
def dispose (disposition : DWORD) (old : Option (List BYTE)) : Option (List BYTE) :=
  if disposition = CREATE_NEW then
    (match old with | none => some [] | some _ => none)
  else if disposition = CREATE_ALWAYS then some []
  else if disposition = OPEN_EXISTING then old
  else if disposition = OPEN_ALWAYS then some (old.getD [])
  else if disposition = TRUNCATE_EXISTING then old.map (fun _ => [])
  else none

/-- The host call `CreateFile` (security attributes and template file are
`NULL` and left out): a new handle on the file the path names, with the file
pointer at zero, or `INVALID_HANDLE_VALUE` when the path cannot be opened. -/
def CreateFile (lpFileName : Path)
    (dwDesiredAccess dwShareMode dwCreationDisposition dwFlagsAndAttributes : DWORD)
    (w : World) : HANDLE × World :=
  let w1 := w.record (.createFile lpFileName dwDesiredAccess dwShareMode
    dwCreationDisposition dwFlagsAndAttributes)
  if w.openable lpFileName && !sharingViolation w lpFileName dwDesiredAccess dwShareMode then
    match dispose dwCreationDisposition (w.read lpFileName) with
    | none => (none, w1)
    | some c =>
      let id := freshHandle w.handles
      (some id,
        { w1 with
          files := Function.update w.files (w.resolve lpFileName) (some c)
          handles :=
            ⟨id, w.resolve lpFileName, 0, dwDesiredAccess, dwShareMode⟩ :: w.handles })
  else (none, w1)

/-- The content of a file after `bs` is written at offset `pos`. -/
def writeAt (c : List BYTE) (pos : Nat) (bs : List BYTE) : List BYTE :=
  c.take pos ++ List.replicate (pos - c.length) 0 ++ bs ++ c.drop (pos + bs.length)

/-- The host call `WriteFile` (no overlapped structure): the success flag, the
number of bytes written, and the new state.  The host takes at most `writeCap`
of the requested bytes; a write that transfers no byte leaves the file as it
is. -/
def WriteFile (hFile : HANDLE) (lpBuffer : LPVOID) (nNumberOfBytesToWrite : DWORD)
    (w : World) : Bool × DWORD × World :=
  let w1 := w.record (.writeFile hFile lpBuffer nNumberOfBytesToWrite)
  match hFile with
  | none => (false, 0, w1)
  | some id =>
    match w.handles.find? (fun h => h.id == id) with
    | none => (false, 0, w1)
    | some h =>
      if h.access / GENERIC_WRITE % 2 == 0 then (false, 0, w1)
      else if nNumberOfBytesToWrite = 0 then (true, 0, w1)
      else
        match lpBuffer with
        | none => (false, 0, w1)
        | some addr =>
          let k := min nNumberOfBytesToWrite w.writeCap
          if k = 0 then (false, 0, w1)
          else
            let bs := readMem w.mem addr k
            (decide (k = nNumberOfBytesToWrite), k,
              { w1 with
                files := Function.update w.files h.file
                  (some (writeAt ((w.files h.file).getD []) h.pos bs))
                handles := w.handles.map (fun g =>
                  if g.id == id then { g with pos := g.pos + k } else g) })

/-- The host call `CloseHandle`: removes the handle from the table; fails on a
handle that is not open. -/
def CloseHandle (hObject : HANDLE) (w : World) : Bool × World :=
  let w1 := w.record (.closeHandle hObject)
  match hObject with
  | none => (false, w1)
  | some id =>
    if w.handles.any (fun h => h.id == id) then
      (true, { w1 with handles := w.handles.filter (fun h => h.id != id) })
    else (false, w1)

/-! ## The function -/

/-- The function `ExtractResource` of `gui/guiresource.c`, one binding per
statement.  It returns `void`; every host result it does not pass on is
dropped. -/
def ExtractResource (path : Path) (resource : HRSRC) (w : World) : Unit × World :=
  let (hModule, w) := GetModuleHandle none w
  let (hGlobal, w) := LoadResource hModule resource w
  let (size, w) := SizeofResource hModule resource w
  let (data, w) := LockResource hGlobal w
  let (hFile, w) := CreateFile path GENERIC_WRITE 0 CREATE_ALWAYS FILE_ATTRIBUTE_NORMAL w
  let (_, _writtenBytes, w) := WriteFile hFile data size w
  let (_, w) := CloseHandle hFile w
  ((), w)

/-! ## Vocabulary of the properties -/

/-- Whether the destination can be created or opened the way `ExtractResource`
opens it: for writing, with no sharing. -/
def opens (w : World) (path : Path) : Bool :=
  w.openable path && !sharingViolation w path GENERIC_WRITE 0

/-- The payload of a resource entry: its declared number of bytes at its
address. -/
def payload (w : World) (e : ResEntry) : List BYTE :=
  readMem w.mem e.addr e.size

/-- The host calls `ExtractResource` issues, as a function of what the
resource reference resolves to and of the handle the open returns. -/
def callsOf (w : World) (path : Path) (resource : HRSRC) (hFile : HANDLE) : List HostCall :=
  let e := w.resTable w.exe resource
  [ .getModuleHandle none,
    .loadResource (some w.exe) resource,
    .sizeofResource (some w.exe) resource,
    .lockResource (e.map (fun e => e.addr)),
    .createFile path GENERIC_WRITE 0 CREATE_ALWAYS FILE_ATTRIBUTE_NORMAL,
    .writeFile hFile (e.map (fun e => e.addr))
      (match e with | some e => e.size % 2 ^ 32 | none => 0),
    .closeHandle hFile ]

/-- A numbering of character strings, one number per string (bijective
numeration in base 1114112, the number of code points). -/
def fileNumber (cs : List Char) : FileId :=
  cs.foldr (fun c n => n * 1114112 + c.toNat + 1) 0

/-- A path resolution in which a leading `./` changes nothing: `./out.bin`
names the file `out.bin` names, and paths that differ otherwise name different
files. -/
def resolveDot (p : Path) : FileId :=
  fileNumber (if p.data.take 2 = ['.', '/'] then p.data.drop 2 else p.data)

/-- A world with one 4-byte resource `DE AD BE EF` (reference 1, at address
4096 of the process image), an empty file system in which every path but those
on drive `Q:` can be opened and a leading `./` is ignored, and room for any
write. -/
def demoWorld : World where
  exe := 7
  loaded := fun _ => none
  resTable := fun m r => if m = 7 ∧ r = 1 then some ⟨4096, 4⟩ else none
  mem := fun a =>
    if a = 4096 then 0xDE else if a = 4097 then 0xAD
    else if a = 4098 then 0xBE else if a = 4099 then 0xEF else 0
  resolve := resolveDot
  files := fun _ => none
  openable := fun p => p.data.take 2 != ['Q', ':']
  writeCap := 1000000
  handles := []
  log := []

/-- The world `demoWorld` with six other bytes in the file `out.bin`. -/
def aliasWorld : World :=
  { demoWorld with
    files := Function.update demoWorld.files (demoWorld.resolve "out.bin")
      (some [1, 2, 3, 4, 5, 6]) }

/-- The name of the host function a call was made to. -/
def HostCall.name : HostCall → String
  | .getModuleHandle _ => "GetModuleHandle"
  | .loadResource _ _ => "LoadResource"
  | .sizeofResource _ _ => "SizeofResource"
  | .lockResource _ => "LockResource"
  | .createFile _ _ _ _ _ => "CreateFile"
  | .writeFile _ _ _ => "WriteFile"
  | .closeHandle _ => "CloseHandle"

/-- The host calls one run of `ExtractResource` adds to the log of `w`. -/
def newCalls (path : Path) (resource : HRSRC) (w : World) : List HostCall :=
  (ExtractResource path resource w).2.log.drop w.log.length

/-- The bytes `ExtractResource` leaves in a destination it could open: as many
of the declared bytes of the resource as the host accepts, none when the
reference does not resolve. -/
def written (w : World) (resource : HRSRC) : List BYTE :=
  match w.resTable w.exe resource with
  | some e => readMem w.mem e.addr (min (e.size % 2 ^ 32) w.writeCap)
  | none => []

/-! ## Lemmas on the host model -/

theorem id_lt_freshHandle (hs : List OpenFile) (h : OpenFile) (hmem : h ∈ hs) :
    h.id < freshHandle hs := by
  induction hs with
  | nil => cases hmem
  | cons a t ih =>
    simp only [freshHandle, List.map_cons, List.foldr_cons] at ih ⊢
    rcases List.mem_cons.mp hmem with rfl | ht
    · omega
    · have := ih ht
      omega

theorem filter_freshHandle (hs : List OpenFile) :
    hs.filter (fun h => h.id != freshHandle hs) = hs := by
  apply List.filter_eq_self.mpr
  intro h hmem
  have := id_lt_freshHandle hs h hmem
  simp only [bne_iff_ne, ne_eq]
  omega

theorem map_freshHandle (hs : List OpenFile) (f : OpenFile → OpenFile) :
    hs.map (fun g => if g.id == freshHandle hs then f g else g) = hs := by
  have hid : ∀ g ∈ hs, (fun g => if g.id == freshHandle hs then f g else g) g = id g := by
    intro g hmem
    have := id_lt_freshHandle hs g hmem
    have hne : g.id ≠ freshHandle hs := by omega
    simp [hne]
  rw [List.map_congr_left hid, List.map_id]

theorem readMem_length (mem : Nat → BYTE) (addr n : Nat) : (readMem mem addr n).length = n := by
  simp [readMem]

theorem readMem_take (mem : Nat → BYTE) (addr n k : Nat) :
    (readMem mem addr n).take k = readMem mem addr (min k n) := by
  simp [readMem, ← List.map_take, List.take_range]

theorem writeAt_nil_zero (bs : List BYTE) : writeAt [] 0 bs = bs := by
  simp [writeAt]

theorem CreateFile_closed (path : Path) (v : World) (h : opens v path = false) :
    CreateFile path GENERIC_WRITE 0 CREATE_ALWAYS FILE_ATTRIBUTE_NORMAL v =
      (none, v.record (.createFile path GENERIC_WRITE 0 CREATE_ALWAYS FILE_ATTRIBUTE_NORMAL)) := by
  unfold opens at h
  unfold CreateFile
  simp only [h, Bool.false_eq_true, if_false]

theorem CreateFile_opens (path : Path) (v : World) (h : opens v path = true) :
    CreateFile path GENERIC_WRITE 0 CREATE_ALWAYS FILE_ATTRIBUTE_NORMAL v =
      (some (freshHandle v.handles),
        { v.record (.createFile path GENERIC_WRITE 0 CREATE_ALWAYS FILE_ATTRIBUTE_NORMAL) with
          files := Function.update v.files (v.resolve path) (some [])
          handles :=
            ⟨freshHandle v.handles, v.resolve path, 0, GENERIC_WRITE, 0⟩ :: v.handles }) := by
  unfold opens at h
  unfold CreateFile
  simp only [h, if_true, dispose, CREATE_ALWAYS, CREATE_NEW]
  rfl

/-- When the destination cannot be opened, the call only extends the log. -/
theorem ExtractResource_closed (path : Path) (resource : HRSRC) (w : World)
    (h : opens w path = false) :
    ExtractResource path resource w =
      ((), { w with log := w.log ++ callsOf w path resource none }) := by
  have hc := fun (c : List HostCall) =>
    CreateFile_closed path { w with log := c } h
  simp only [ExtractResource, GetModuleHandle, LoadResource, SizeofResource, LockResource,
    World.record, findRes, Option.getD_some, hc]
  simp [WriteFile, CloseHandle, World.record, callsOf]

/-- When the destination can be opened, the call leaves `written` in the file
it names, puts the handle table back as it was, and extends the log. -/
theorem ExtractResource_opened (path : Path) (resource : HRSRC) (w : World)
    (h : opens w path = true) :
    ExtractResource path resource w =
      ((), { w with
        files := Function.update w.files (w.resolve path) (some (written w resource))
        log := w.log ++ callsOf w path resource (some (freshHandle w.handles)) }) := by
  have hc := fun (c : List HostCall) =>
    CreateFile_opens path { w with log := c } h
  simp only [ExtractResource, GetModuleHandle, LoadResource, SizeofResource, LockResource,
    World.record, findRes, Option.getD_some, hc]
  clear hc
  have hf := filter_freshHandle w.handles
  cases hres : w.resTable w.exe resource with
  | none =>
    simp [WriteFile, CloseHandle, World.record, callsOf, written, hres, GENERIC_WRITE, hf]
  | some e =>
    simp only [callsOf, written, hres, Option.map_some']
    generalize e.size % 2 ^ 32 = n
    by_cases hz : n = 0
    · subst hz
      simp [WriteFile, CloseHandle, World.record, GENERIC_WRITE, hf, readMem]
    · by_cases hk : min n w.writeCap = 0
      · simp [WriteFile, CloseHandle, World.record, GENERIC_WRITE, hf, hz, hk, readMem]
      · have hm := map_freshHandle w.handles
          (fun g => { g with pos := g.pos + min n w.writeCap })
        simp only [beq_iff_eq] at hm
        simp [WriteFile, CloseHandle, World.record, GENERIC_WRITE, hf, hz, hk, writeAt_nil_zero,
          hm]

theorem newCalls_eq (path : Path) (resource : HRSRC) (w : World) :
    newCalls path resource w =
      callsOf w path resource (if opens w path = true then some (freshHandle w.handles) else none) := by
  unfold newCalls
  by_cases h : opens w path = true
  · rw [ExtractResource_opened path resource w h]
    simp [h]
  · have h0 : opens w path = false := by simpa using h
    rw [ExtractResource_closed path resource w h0]
    simp [h0]

theorem CreateFile_fst (path : Path) (w : World) :
    (CreateFile path GENERIC_WRITE 0 CREATE_ALWAYS FILE_ATTRIBUTE_NORMAL w).1 =
      if opens w path = true then some (freshHandle w.handles) else none := by
  by_cases h : opens w path = true
  · rw [CreateFile_opens path w h]
    simp [h]
  · have h0 : opens w path = false := by simpa using h
    rw [CreateFile_closed path w h0]
    simp [h0]

theorem written_full (w : World) (resource : HRSRC) (e : ResEntry)
    (hres : w.resTable w.exe resource = some e) (hsize : e.size < 2 ^ 32)
    (hcap : e.size ≤ w.writeCap) : written w resource = payload w e := by
  simp only [written, hres, payload, Nat.mod_eq_of_lt hsize, Nat.min_eq_left hcap]

/-! ## Round trip and overwrite -/

/-- C1: when the resource reference resolves in the current module to an entry
whose declared size fits the `DWORD`, the destination can be opened and the host
accepts all bytes, the destination file after the call holds exactly the
payload: as many bytes as `SizeofResource` declares, none cut and none added. -/
theorem ExtractResource_roundtrip (w : World) (path : Path) (resource : HRSRC) (e : ResEntry)
    (hres : w.resTable w.exe resource = some e) (hsize : e.size < 2 ^ 32)
    (hopen : opens w path = true) (hcap : e.size ≤ w.writeCap) :
    (ExtractResource path resource w).2.read path = some (payload w e) ∧
    (payload w e).length = (SizeofResource (some w.exe) resource w).1 ∧
    (payload w e).length = e.size := by
  rw [ExtractResource_opened path resource w hopen, written_full w resource e hres hsize hcap]
  have hmod : e.size % 2 ^ 32 = e.size := Nat.mod_eq_of_lt hsize
  simp only [World.read, payload, readMem_length, SizeofResource, findRes, hres,
    Option.getD_some, hmod, Function.update_same, and_self]

/-- Witness of C1: the 4-byte resource `DE AD BE EF` extracted to `out.bin`
gives a file of exactly those 4 bytes. -/
theorem ExtractResource_roundtrip_witness :
    payload demoWorld ⟨4096, 4⟩ = [0xDE, 0xAD, 0xBE, 0xEF] ∧
    (ExtractResource "out.bin" 1 demoWorld).2.read "out.bin" =
      some (payload demoWorld ⟨4096, 4⟩) ∧
    (payload demoWorld ⟨4096, 4⟩).length = (SizeofResource (some demoWorld.exe) 1 demoWorld).1 ∧
    (payload demoWorld ⟨4096, 4⟩).length = 4 :=
  ⟨by decide,
    ExtractResource_roundtrip demoWorld "out.bin" 1 ⟨4096, 4⟩ (by decide) (by decide) (by decide)
      (by decide)⟩

/-- C2: whatever content `P` the destination held before (also one longer than
the payload), after a call that opens the destination and writes in full the
file holds exactly the payload, and the whole file system is the one the call
produces when `P` was never there. -/
theorem ExtractResource_overwrite (w : World) (path : Path) (resource : HRSRC) (e : ResEntry)
    (P : List BYTE)
    (hres : w.resTable w.exe resource = some e) (hsize : e.size < 2 ^ 32)
    (hopen : opens w path = true) (hcap : e.size ≤ w.writeCap) :
    World.read { w with files := Function.update w.files (w.resolve path) (some P) } path =
      some P ∧
    (ExtractResource path resource
      { w with files := Function.update w.files (w.resolve path) (some P) }).2.read path =
        some (payload w e) ∧
    (ExtractResource path resource
      { w with files := Function.update w.files (w.resolve path) (some P) }).2.files =
        (ExtractResource path resource w).2.files := by
  have hopen2 :
      opens { w with files := Function.update w.files (w.resolve path) (some P) } path = true :=
    hopen
  have hw :
      written { w with files := Function.update w.files (w.resolve path) (some P) } resource =
        payload w e := written_full _ resource e hres hsize hcap
  rw [ExtractResource_opened path resource _ hopen2, ExtractResource_opened path resource w hopen,
    hw, written_full w resource e hres hsize hcap]
  simp [World.read]

/-- Witness of C2: a destination that held six other bytes holds the four
payload bytes after the call. -/
theorem ExtractResource_overwrite_witness :
    World.read
      { demoWorld with
        files := Function.update demoWorld.files (demoWorld.resolve "out.bin")
          (some [1, 2, 3, 4, 5, 6]) } "out.bin" = some [1, 2, 3, 4, 5, 6] ∧
    (ExtractResource "out.bin" 1
      { demoWorld with
        files := Function.update demoWorld.files (demoWorld.resolve "out.bin")
          (some [1, 2, 3, 4, 5, 6]) }).2.read "out.bin" =
        some (payload demoWorld ⟨4096, 4⟩) ∧
    (ExtractResource "out.bin" 1
      { demoWorld with
        files := Function.update demoWorld.files (demoWorld.resolve "out.bin")
          (some [1, 2, 3, 4, 5, 6]) }).2.files =
        (ExtractResource "out.bin" 1 demoWorld).2.files :=
  ExtractResource_overwrite demoWorld "out.bin" 1 ⟨4096, 4⟩ [1, 2, 3, 4, 5, 6] (by decide)
    (by decide) (by decide) (by decide)

/-! ## Failures the function does not check -/

/-- C3, counterexample: reference 2 does not exist in the module and `out.bin`
does not exist before the call, yet after the call `out.bin` exists (empty), so
the file system is not the one before the call; and the value returned is the
one returned for the existing reference 1. -/
theorem ExtractResource_missing_resource_counterexample :
    demoWorld.resTable demoWorld.exe 2 = none ∧
    demoWorld.read "out.bin" = none ∧
    (ExtractResource "out.bin" 2 demoWorld).2.read "out.bin" = some [] ∧
    (ExtractResource "out.bin" 2 demoWorld).2.files ≠ demoWorld.files ∧
    (ExtractResource "out.bin" 2 demoWorld).1 = (ExtractResource "out.bin" 1 demoWorld).1 := by
  refine ⟨by decide, by decide, by decide, ?_, rfl⟩
  intro h
  have h1 := congrFun h (demoWorld.resolve "out.bin")
  revert h1
  decide

/-- C3, amended: for a resource reference that does not exist in the current
module the call returns no value and still opens the destination.  When the
destination can be opened, the file it names is created or truncated to an
empty file and every other file is as before; when it cannot be opened, the
file system is as before. -/
theorem ExtractResource_missing_resource (w : World) (path : Path) (resource : HRSRC)
    (hres : w.resTable w.exe resource = none) :
    (ExtractResource path resource w).1 = () ∧
    (opens w path = true →
      (ExtractResource path resource w).2.read path = some [] ∧
      (ExtractResource path resource w).2.files =
        Function.update w.files (w.resolve path) (some []) ∧
      ∀ f, f ≠ w.resolve path → (ExtractResource path resource w).2.files f = w.files f) ∧
    (opens w path = false → (ExtractResource path resource w).2.files = w.files) := by
  refine ⟨rfl, fun h => ?_, fun h => ?_⟩
  · rw [ExtractResource_opened path resource w h]
    refine ⟨?_, ?_, fun f hf => ?_⟩
    · simp [World.read, written, hres]
    · simp [written, hres]
    · simp [Function.update_noteq hf]
  · rw [ExtractResource_closed path resource w h]

/-- Witness of the amended C3 at the missing reference 2 and `out.bin`. -/
theorem ExtractResource_missing_resource_witness :
    demoWorld.resTable demoWorld.exe 2 = none ∧
    (ExtractResource "out.bin" 2 demoWorld).1 = () ∧
    (opens demoWorld "out.bin" = true →
      (ExtractResource "out.bin" 2 demoWorld).2.read "out.bin" = some [] ∧
      (ExtractResource "out.bin" 2 demoWorld).2.files =
        Function.update demoWorld.files (demoWorld.resolve "out.bin") (some []) ∧
      ∀ f, f ≠ demoWorld.resolve "out.bin" →
        (ExtractResource "out.bin" 2 demoWorld).2.files f = demoWorld.files f) ∧
    (opens demoWorld "out.bin" = false →
      (ExtractResource "out.bin" 2 demoWorld).2.files = demoWorld.files) :=
  ⟨by decide, ExtractResource_missing_resource demoWorld "out.bin" 2 (by decide)⟩

/-- C4, counterexample: `Q:/missing/out.bin` cannot be opened and reference 1
is valid, yet no function of the returned value tells this call from the
successful extraction to `out.bin`. -/
theorem ExtractResource_unwritable_counterexample :
    opens demoWorld "Q:/missing/out.bin" = false ∧
    demoWorld.resTable demoWorld.exe 1 = some ⟨4096, 4⟩ ∧
    (ExtractResource "out.bin" 1 demoWorld).2.read "out.bin" = some [0xDE, 0xAD, 0xBE, 0xEF] ∧
    ¬ ∃ signal : Unit → Bool,
      signal (ExtractResource "Q:/missing/out.bin" 1 demoWorld).1 = true ∧
      signal (ExtractResource "out.bin" 1 demoWorld).1 = false := by
  refine ⟨by decide, by decide, by decide, ?_⟩
  rintro ⟨signal, h1, h2⟩
  have h3 : signal () = true := h1
  have h4 : signal () = false := h2
  rw [h3] at h4
  exact Bool.noConfusion h4

/-- C4, amended: for a destination that cannot be created or opened and a valid
resource reference the call completes and returns no value; the
`INVALID_HANDLE_VALUE` of the failed open is handed on to `WriteFile` and
`CloseHandle`, and the file system and the table of open handles are left as
they were. -/
theorem ExtractResource_unwritable (w : World) (path : Path) (resource : HRSRC) (e : ResEntry)
    (hres : w.resTable w.exe resource = some e) (hopen : opens w path = false) :
    (ExtractResource path resource w).1 = () ∧
    (ExtractResource path resource w).2.files = w.files ∧
    (ExtractResource path resource w).2.handles = w.handles ∧
    (CreateFile path GENERIC_WRITE 0 CREATE_ALWAYS FILE_ATTRIBUTE_NORMAL w).1 = none ∧
    (newCalls path resource w).drop 5 =
      [.writeFile none (some e.addr) (e.size % 2 ^ 32), .closeHandle none] := by
  rw [newCalls_eq, CreateFile_fst, ExtractResource_closed path resource w hopen]
  simp [hopen, callsOf, hres]

/-- Witness of the amended C4 at `Q:/missing/out.bin` and reference 1. -/
theorem ExtractResource_unwritable_witness :
    demoWorld.resTable demoWorld.exe 1 = some ⟨4096, 4⟩ ∧
    opens demoWorld "Q:/missing/out.bin" = false ∧
    (ExtractResource "Q:/missing/out.bin" 1 demoWorld).1 = () ∧
    (ExtractResource "Q:/missing/out.bin" 1 demoWorld).2.files = demoWorld.files ∧
    (ExtractResource "Q:/missing/out.bin" 1 demoWorld).2.handles = demoWorld.handles ∧
    (CreateFile "Q:/missing/out.bin" GENERIC_WRITE 0 CREATE_ALWAYS FILE_ATTRIBUTE_NORMAL
      demoWorld).1 = none ∧
    (newCalls "Q:/missing/out.bin" 1 demoWorld).drop 5 =
      [.writeFile none (some 4096) (4 % 2 ^ 32), .closeHandle none] :=
  ⟨by decide, by decide,
    ExtractResource_unwritable demoWorld "Q:/missing/out.bin" 1 ⟨4096, 4⟩ (by decide)
      (by decide)⟩

/-! ## Frame, trace and handles -/

/-- C5, counterexample: `out.bin` is a path other than the destination path
`./out.bin`, it holds `01 02 03 04 05 06` before the call and `DE AD BE EF`
after it, because both paths name one file. -/
theorem ExtractResource_frame_counterexample :
    ("out.bin" : Path) ≠ "./out.bin" ∧
    aliasWorld.resolve "out.bin" = aliasWorld.resolve "./out.bin" ∧
    aliasWorld.read "out.bin" = some [1, 2, 3, 4, 5, 6] ∧
    (ExtractResource "./out.bin" 1 aliasWorld).2.read "out.bin" =
      some [0xDE, 0xAD, 0xBE, 0xEF] ∧
    ¬ (∀ q, q ≠ "./out.bin" →
      (ExtractResource "./out.bin" 1 aliasWorld).2.read q = aliasWorld.read q) := by
  refine ⟨by decide, by decide, by decide, by decide, ?_⟩
  intro h
  have h1 := h "out.bin" (by decide)
  revert h1
  decide

/-- C5, amended: whatever the host calls return, every file other than the one
the destination path names has the same existence and content after the call as
before, so every path that does not resolve to the file of the destination
reads back as before, while a path that resolves to it reads back as the
destination does; the modules, their resource tables, the process memory
holding the payloads, the path resolution, the host limits and the table of
open handles are unchanged.  Only the file the destination path names can
differ. -/
theorem ExtractResource_frame (w : World) (path : Path) (resource : HRSRC) :
    (∀ f, f ≠ w.resolve path → (ExtractResource path resource w).2.files f = w.files f) ∧
    (∀ q, w.resolve q ≠ w.resolve path →
      (ExtractResource path resource w).2.read q = w.read q) ∧
    (∀ q, w.resolve q = w.resolve path →
      (ExtractResource path resource w).2.read q =
        (ExtractResource path resource w).2.read path) ∧
    (ExtractResource path resource w).2.resTable = w.resTable ∧
    (ExtractResource path resource w).2.mem = w.mem ∧
    (ExtractResource path resource w).2.exe = w.exe ∧
    (ExtractResource path resource w).2.loaded = w.loaded ∧
    (ExtractResource path resource w).2.resolve = w.resolve ∧
    (ExtractResource path resource w).2.openable = w.openable ∧
    (ExtractResource path resource w).2.writeCap = w.writeCap ∧
    (ExtractResource path resource w).2.handles = w.handles := by
  by_cases h : opens w path = true
  · rw [ExtractResource_opened path resource w h]
    refine ⟨fun f hf => ?_, fun q hq => ?_, fun q hq => ?_, rfl, rfl, rfl, rfl, rfl, rfl, rfl,
      rfl⟩
    · simp [Function.update_noteq hf]
    · simp [World.read, Function.update_noteq hq]
    · simp only [World.read]
      rw [hq]
  · have h0 : opens w path = false := by simpa using h
    rw [ExtractResource_closed path resource w h0]
    refine ⟨fun _ _ => rfl, fun _ _ => rfl, fun q hq => ?_, rfl, rfl, rfl, rfl, rfl, rfl, rfl,
      rfl⟩
    simp [World.read, hq]

/-- C6: for every input and every host state (resource missing or not, open
failing or not, write short or not) the call returns no value and adds to the
log exactly the same seven host calls in the same order: `GetModuleHandle`,
`LoadResource`, `SizeofResource`, `LockResource`, `CreateFile`, one `WriteFile`
asking for the full declared size, `CloseHandle`. -/
theorem ExtractResource_trace (w : World) (path : Path) (resource : HRSRC) :
    (ExtractResource path resource w).1 = () ∧
    (ExtractResource path resource w).2.log = w.log ++
      [ .getModuleHandle none,
        .loadResource (some w.exe) resource,
        .sizeofResource (some w.exe) resource,
        .lockResource (LoadResource (some w.exe) resource w).1,
        .createFile path GENERIC_WRITE 0 CREATE_ALWAYS FILE_ATTRIBUTE_NORMAL,
        .writeFile (CreateFile path GENERIC_WRITE 0 CREATE_ALWAYS FILE_ATTRIBUTE_NORMAL w).1
          (LockResource (LoadResource (some w.exe) resource w).1 w).1
          (SizeofResource (some w.exe) resource w).1,
        .closeHandle (CreateFile path GENERIC_WRITE 0 CREATE_ALWAYS FILE_ATTRIBUTE_NORMAL w).1 ] ∧
    (newCalls path resource w).map HostCall.name =
      ["GetModuleHandle", "LoadResource", "SizeofResource", "LockResource", "CreateFile",
        "WriteFile", "CloseHandle"] := by
  rw [newCalls_eq, CreateFile_fst]
  refine ⟨rfl, ?_, ?_⟩
  · by_cases h : opens w path = true
    · rw [ExtractResource_opened path resource w h]
      simp [callsOf, LoadResource, LockResource, SizeofResource, findRes, h]
    · have h0 : opens w path = false := by simpa using h
      rw [ExtractResource_closed path resource w h0]
      simp [callsOf, LoadResource, LockResource, SizeofResource, findRes, h0]
  · simp [callsOf, HostCall.name]

/-- C7: when the resource is valid, the destination can be opened and the host
write accepts only `k` bytes with `k` below the declared size, then after the
call the destination exists and holds exactly the first `k` bytes of the
payload (a strict prefix, whatever the file held before), it is not removed,
and the value returned is the one a full write returns. -/
theorem ExtractResource_short_write (w : World) (path : Path) (resource : HRSRC) (e : ResEntry)
    (k : Nat)
    (hres : w.resTable w.exe resource = some e) (hsize : e.size < 2 ^ 32)
    (hopen : opens w path = true) (hk : k < e.size) (hcap : w.writeCap = k) :
    (ExtractResource path resource w).2.read path = some ((payload w e).take k) ∧
    ((payload w e).take k).length = k ∧
    k < (payload w e).length ∧
    (ExtractResource path resource w).1 =
      (ExtractResource path resource { w with writeCap := e.size }).1 := by
  have hmod : e.size % 2 ^ 32 = e.size := Nat.mod_eq_of_lt hsize
  have hmin : min e.size k = min k e.size := Nat.min_comm _ _
  rw [ExtractResource_opened path resource w hopen]
  simp only [World.read, written, hres, hmod, hcap, payload, readMem_take, readMem_length, hmin,
    Function.update_same, Nat.min_eq_left (Nat.le_of_lt hk), hk, and_self]

/-- Witness of C7: with room for 3 bytes only, `out.bin` ends up with the first
3 of the 4 payload bytes. -/
theorem ExtractResource_short_write_witness :
    (payload demoWorld ⟨4096, 4⟩).take 3 = [0xDE, 0xAD, 0xBE] ∧
    (ExtractResource "out.bin" 1 { demoWorld with writeCap := 3 }).2.read "out.bin" =
      some ((payload { demoWorld with writeCap := 3 } ⟨4096, 4⟩).take 3) ∧
    ((payload { demoWorld with writeCap := 3 } ⟨4096, 4⟩).take 3).length = 3 ∧
    3 < (payload { demoWorld with writeCap := 3 } ⟨4096, 4⟩).length ∧
    (ExtractResource "out.bin" 1 { demoWorld with writeCap := 3 }).1 =
      (ExtractResource "out.bin" 1 { demoWorld with writeCap := 4 }).1 :=
  ⟨by decide,
    ExtractResource_short_write { demoWorld with writeCap := 3 } "out.bin" 1 ⟨4096, 4⟩ 3
      (by decide) (by decide) (by decide) (by decide) rfl⟩

/-- C8: the module handle is the one of the process image itself
(`GetModuleHandle` with `NULL`); every load and every size query of the call has
that handle and the resource reference of the caller as its argument pair; the
handle locked is the result of that load; and the buffer and the length handed
to `WriteFile` are the locked pointer and the size of that same pair. -/
theorem ExtractResource_same_module (w : World) (path : Path) (resource : HRSRC) :
    (GetModuleHandle none w).1 = some w.exe ∧
    HostCall.getModuleHandle none ∈ newCalls path resource w ∧
    HostCall.loadResource (some w.exe) resource ∈ newCalls path resource w ∧
    HostCall.sizeofResource (some w.exe) resource ∈ newCalls path resource w ∧
    (∀ name, HostCall.getModuleHandle name ∈ newCalls path resource w → name = none) ∧
    (∀ m x, HostCall.loadResource m x ∈ newCalls path resource w →
      m = some w.exe ∧ x = resource) ∧
    (∀ m x, HostCall.sizeofResource m x ∈ newCalls path resource w →
      m = some w.exe ∧ x = resource) ∧
    (∀ g, HostCall.lockResource g ∈ newCalls path resource w →
      g = (LoadResource (some w.exe) resource w).1) ∧
    (∀ hFile data size, HostCall.writeFile hFile data size ∈ newCalls path resource w →
      data = (LockResource (LoadResource (some w.exe) resource w).1 w).1 ∧
      size = (SizeofResource (some w.exe) resource w).1) := by
  rw [newCalls_eq]
  simp [callsOf, GetModuleHandle, LoadResource, LockResource, SizeofResource, findRes]

/-- C9: when the destination is opened, the handle the open returns was not
open before, it is closed exactly once, by the last host call of the run, right
after the write to that handle, and the table of open handles after the call is
the table before it. -/
theorem ExtractResource_handle_release (w : World) (path : Path) (resource : HRSRC)
    (hopen : opens w path = true) :
    (CreateFile path GENERIC_WRITE 0 CREATE_ALWAYS FILE_ATTRIBUTE_NORMAL w).1 =
      some (freshHandle w.handles) ∧
    (∀ g ∈ w.handles, g.id ≠ freshHandle w.handles) ∧
    (ExtractResource path resource w).2.handles = w.handles ∧
    (∃ pre data size,
      newCalls path resource w =
        pre ++ [.writeFile (some (freshHandle w.handles)) data size,
          .closeHandle (some (freshHandle w.handles))] ∧
      ∀ c ∈ pre, ∀ x, c ≠ .closeHandle x) := by
  rw [newCalls_eq, CreateFile_fst, ExtractResource_opened path resource w hopen]
  refine ⟨by simp [hopen], ?_, rfl, ?_⟩
  · intro g hg
    have := id_lt_freshHandle w.handles g hg
    omega
  · refine ⟨(callsOf w path resource none).take 5, (LoadResource (some w.exe) resource w).1,
      (SizeofResource (some w.exe) resource w).1, ?_, ?_⟩
    · simp [hopen, callsOf, LoadResource, SizeofResource, findRes]
    · simp [callsOf]

/-- Witness of C9 at `out.bin` and reference 1. -/
theorem ExtractResource_handle_release_witness :
    opens demoWorld "out.bin" = true ∧
    (CreateFile "out.bin" GENERIC_WRITE 0 CREATE_ALWAYS FILE_ATTRIBUTE_NORMAL demoWorld).1 =
      some (freshHandle demoWorld.handles) ∧
    (∀ g ∈ demoWorld.handles, g.id ≠ freshHandle demoWorld.handles) ∧
    (ExtractResource "out.bin" 1 demoWorld).2.handles = demoWorld.handles ∧
    (∃ pre data size,
      newCalls "out.bin" 1 demoWorld =
        pre ++ [.writeFile (some (freshHandle demoWorld.handles)) data size,
          .closeHandle (some (freshHandle demoWorld.handles))] ∧
      ∀ c ∈ pre, ∀ x, c ≠ .closeHandle x) :=
  ⟨by decide, ExtractResource_handle_release demoWorld "out.bin" 1 (by decide)⟩

/-! ## Idempotence -/

/-- C10: for a valid resource, a destination that can be opened and full
writes, a second call right after the first leaves the file system (and the
table of open handles) exactly as the first call left it, with the payload in
the destination. -/
theorem ExtractResource_idempotent (w : World) (path : Path) (resource : HRSRC) (e : ResEntry)
    (hres : w.resTable w.exe resource = some e) (hsize : e.size < 2 ^ 32)
    (hopen : opens w path = true) (hcap : e.size ≤ w.writeCap) :
    (ExtractResource path resource (ExtractResource path resource w).2).2.files =
      (ExtractResource path resource w).2.files ∧
    (ExtractResource path resource (ExtractResource path resource w).2).2.handles =
      (ExtractResource path resource w).2.handles ∧
    (ExtractResource path resource (ExtractResource path resource w).2).2.read path =
      some (payload w e) := by
  have h1 := ExtractResource_opened path resource w hopen
  have hopen2 : opens (ExtractResource path resource w).2 path = true := by
    rw [h1]
    exact hopen
  have hw2 : written (ExtractResource path resource w).2 resource = payload w e := by
    rw [h1]
    exact written_full _ resource e hres hsize hcap
  rw [ExtractResource_opened path resource _ hopen2, hw2, h1,
    written_full w resource e hres hsize hcap]
  simp [World.read]

/-- Witness of C10: extracting reference 1 to `out.bin` twice. -/
theorem ExtractResource_idempotent_witness :
    (ExtractResource "out.bin" 1 (ExtractResource "out.bin" 1 demoWorld).2).2.files =
      (ExtractResource "out.bin" 1 demoWorld).2.files ∧
    (ExtractResource "out.bin" 1 (ExtractResource "out.bin" 1 demoWorld).2).2.handles =
      (ExtractResource "out.bin" 1 demoWorld).2.handles ∧
    (ExtractResource "out.bin" 1 (ExtractResource "out.bin" 1 demoWorld).2).2.read "out.bin" =
      some (payload demoWorld ⟨4096, 4⟩) :=
  ExtractResource_idempotent demoWorld "out.bin" 1 ⟨4096, 4⟩ (by decide) (by decide)
    (by decide) (by decide)

end Wabbitemu
